import Mathlib

/-!
Verification of the Hospital Management availability engine.

This file shallowly embeds the availability-slot logic of `app.py`:

* `generate_time_slots` (app.py, lines 70-97): a while loop over
  `datetime` values parsed from `HH:MM` strings.  Since `strptime('%H:%M')`
  is injective on valid inputs and all arithmetic/comparisons act on the
  underlying instant, times are modelled as `Int` minutes since midnight
  (the parsed value); `timedelta` addition is `Int` addition.  The Python
  `while` loop may diverge (for non-positive intervals), so the loop body
  is embedded as a fuel-indexed recursion `genLoop` returning
  `Option (List Slot)`: `none` means the step budget was exhausted, and
  divergence of the real loop corresponds to `genLoop` returning `none`
  for every fuel.  `generate_time_slots` runs the loop with fuel
  `(end - start).toNat + 1`, which is proved sufficient whenever the
  interval is positive.

* `get_doctor_slots` (app.py, lines 515-558): the Flask route handler.
  The session dict is modelled as `Option Session` (`none` = no
  `user_id` in the session), the SQLite tables as lists of rows carried
  by a `DB` value, and a raised exception from the persistence layer as
  a `fail` flag on `DB` (the route's `except` clause turns any such
  exception into a 500 response).  `fetchone` on an unordered `SELECT`
  is `List.find?` in table order; the booked-slots `SELECT` is
  `List.filter` followed by projection to `time_slot`.
  `datetime.strptime(date, '%Y-%m-%d')` / `strftime('%A')` are library
  calls, modelled by `parseDate` (strict `Y-M-D` digits with Gregorian
  validity) and `weekdayName` (Sakamoto's day-of-week algorithm, which
  agrees with the proleptic Gregorian calendar used by `datetime`).
-/

namespace HMS

/-- Zero-padded two-digit rendering used by `strftime` for `%H`, `%M`, `%I`. -/
def two (n : Nat) : String :=
  if n < 10 then "0" ++ toString n else toString n

/-- `strftime('%H:%M')` of an instant given as minutes (mod one day). -/
def fmt24 (t : Int) : String :=
  two (t.toNat / 60 % 24) ++ ":" ++ two (t.toNat % 60)

/-- `strftime('%I:%M %p').lower()` of an instant given as minutes. -/
def fmt12 (t : Int) : String :=
  let h := t.toNat / 60 % 24
  let m := t.toNat % 60
  let h12 := if h % 12 = 0 then 12 else h % 12
  let ap := if h < 12 then "am" else "pm"
  two h12 ++ ":" ++ two m ++ " " ++ ap

/-- One emitted slot: the dict
`{'start': ..., 'end': ..., 'display_start': ..., 'display_end': ...}`
built in `generate_time_slots`.  `startMin`/`endMin` are the underlying
`datetime` values (as minutes) that the four string fields are formatted
from. -/
structure Slot where
  startMin : Int
  endMin : Int
  start : String
  «end» : String
  display_start : String
  display_end : String
deriving Repr, DecidableEq

/-- `slots.append({...})` entry for cursor `cur` and slot end `slotEnd`. -/
def mkSlot (cur slotEnd : Int) : Slot :=
  { startMin := cur
    endMin := slotEnd
    start := fmt24 cur
    «end» := fmt24 slotEnd
    display_start := fmt12 cur
    display_end := fmt12 slotEnd }

/-- The guard `if break_start and break_end: ... if current_time >=
break_start_time and slot_end <= break_end_time`.  `none` models a break
pair that is absent (`None`/empty string, falsy in Python). -/
def breakHit (brk : Option (Int × Int)) (current slotEnd : Int) : Bool :=
  match brk with
  | some (bs, be) => decide (bs ≤ current) && decide (slotEnd ≤ be)
  | none => false

/-- The value `break_end_time` assigned to the cursor when the break rule
fires; only read when `breakHit` is `true`, hence when a break is present. -/
def breakEndOf (brk : Option (Int × Int)) : Int :=
  match brk with
  | some (_, be) => be
  | none => 0

/-- Fuel-indexed embedding of the `while current_time < end_time` loop of
`generate_time_slots`.  Each unfolding is one iteration: compute
`slot_end`, jump to `break_end` (emitting nothing) when the break rule
fires, otherwise emit the slot when `slot_end <= end_time` and advance the
cursor to `slot_end`.  `none` means the fuel ran out before the loop
condition failed. -/
def genLoop (endT : Int) (brk : Option (Int × Int)) (interval : Int) :
    Nat → Int → Option (List Slot)
  | 0, _ => none
  | fuel + 1, current =>
    if current < endT then
      let slotEnd := current + interval
      if breakHit brk current slotEnd then
        genLoop endT brk interval fuel (breakEndOf brk)
      else if slotEnd ≤ endT then
        (genLoop endT brk interval fuel slotEnd).map (fun l => mkSlot current slotEnd :: l)
      else
        genLoop endT brk interval fuel slotEnd
    else
      some []

/-- `generate_time_slots(start_time, end_time, break_start, break_end,
interval)` with times already parsed to minutes and the optional break
pair collapsed to `Option (Int × Int)`.  The loop is run with fuel
`(end - start).toNat + 1`, which suffices for every positive interval
(each iteration strictly advances the cursor); a `none` result means the
Python loop never terminates. -/
def generate_time_slots (start_time end_time : Int) (brk : Option (Int × Int))
    (interval : Int) : Option (List Slot) :=
  genLoop end_time brk interval ((end_time - start_time).toNat + 1) start_time

/-! ### Date parsing and weekday resolution (library calls used by the route) -/

/-- Split a character list on `'-'` (the separators of `%Y-%m-%d`). -/
def splitDash : List Char → List (List Char)
  | [] => [[]]
  | c :: rest =>
    let r := splitDash rest
    if c = '-' then [] :: r
    else
      match r with
      | [] => [[c]]
      | g :: gs => (c :: g) :: gs

/-- A non-empty all-digit character group. -/
def isDigits (cs : List Char) : Bool :=
  !cs.isEmpty && cs.all (·.isDigit)

/-- Numeric value of a digit group. -/
def digitsVal (cs : List Char) : Nat :=
  cs.foldl (fun acc c => acc * 10 + (c.toNat - 48)) 0

/-- Gregorian leap year (the calendar `datetime` uses). -/
def isLeap (y : Nat) : Bool :=
  (y % 4 == 0 && y % 100 != 0) || y % 400 == 0

/-- Days in a month of the proleptic Gregorian calendar. -/
def daysInMonth (y m : Nat) : Nat :=
  if m = 2 then (if isLeap y then 29 else 28)
  else if m = 4 ∨ m = 6 ∨ m = 9 ∨ m = 11 then 30
  else 31

/-- Model of `datetime.strptime(date, '%Y-%m-%d')`: three dash-separated
digit groups (year at most 4 digits, month and day at most 2), year in
`1..9999`, month in `1..12`, day within the month.  Returns the parsed
`(year, month, day)` or `none` for a `ValueError`. -/
def parseDate (s : String) : Option (Nat × Nat × Nat) :=
  match splitDash s.data with
  | [ys, ms, ds] =>
    if isDigits ys && ys.length ≤ 4 && isDigits ms && ms.length ≤ 2
        && isDigits ds && ds.length ≤ 2 then
      let y := digitsVal ys
      let m := digitsVal ms
      let d := digitsVal ds
      if 1 ≤ y && 1 ≤ m && m ≤ 12 && 1 ≤ d && d ≤ daysInMonth y m then
        some (y, m, d)
      else none
    else none
  | _ => none

/-- Sakamoto's day-of-week algorithm over the proleptic Gregorian
calendar: `0` = Sunday, ..., `6` = Saturday. -/
def dayOfWeek (y m d : Nat) : Nat :=
  let t : List Nat := [0, 3, 2, 5, 0, 3, 5, 1, 4, 6, 2, 4]
  let y := if m < 3 then y - 1 else y
  (y + y / 4 - y / 100 + y / 400 + t.getD (m - 1) 0 + d) % 7

/-- Model of `date_obj.strftime('%A')`: the English weekday name. -/
def weekdayName (pd : Nat × Nat × Nat) : String :=
  let names : List String :=
    ["Sunday", "Monday", "Tuesday", "Wednesday", "Thursday", "Friday", "Saturday"]
  names.getD (dayOfWeek pd.1 pd.2.1 pd.2.2) "Sunday"

/-! ### Persistence model and the `get_doctor_slots` route -/

/-- A row of the `doctor_slots` table (columns the route reads).  Times are
stored as `HH:MM` strings in SQLite and parsed by `strptime('%H:%M')`
inside `generate_time_slots`; they appear here already as minutes, with
`none` for a `NULL`/empty break column (falsy in Python). -/
structure DoctorSlotRow where
  doctor_id : Nat
  day_of_week : String
  hospital_id : Nat
  start_time : Int
  end_time : Int
  break_start : Option Int
  break_end : Option Int
deriving Repr, DecidableEq

/-- A row of the `appointments` table (columns the route reads). -/
structure AppointmentRow where
  doctor_id : Nat
  date : String
  time_slot : String
  status : String
  hospital_id : Nat
deriving Repr, DecidableEq

/-- The database as seen by the route: the two tables in row order, plus a
flag modelling a persistence-layer exception (any raised `sqlite3` error);
when `fail` is set a query raises and the route's `except` clause answers
with a 500 response. -/
structure DB where
  doctor_slots : List DoctorSlotRow
  appointments : List AppointmentRow
  fail : Bool
deriving Repr

/-- The Flask session fields the route reads; an absent session
(`'user_id' not in session`) is modelled as `none` at the call site. -/
structure Session where
  user_type : String
  hospital_id : Nat
deriving Repr, DecidableEq

/-- A JSON response body: either `{'error': msg}` or the
`{'slots': ..., 'booked_slots': ...}` payload. -/
inductive Body where
  | errorBody (msg : String)
  | okBody (slots : List Slot) (booked : List String)
deriving Repr, DecidableEq

/-- An HTTP response: status code plus JSON body (Flask's `jsonify`
defaults to status 200 when no code is given). -/
structure HttpResponse where
  status : Nat
  body : Body
deriving Repr, DecidableEq

/-- The break pair passed to `generate_time_slots`: present only when both
`break_start` and `break_end` are truthy. -/
def rowBreak (r : DoctorSlotRow) : Option (Int × Int) :=
  match r.break_start, r.break_end with
  | some bs, some be => some (bs, be)
  | _, _ => none

/-- The `WHERE` clause of the `doctor_slots` `SELECT`:
`doctor_id = ? AND day_of_week = ? AND hospital_id = ?`. -/
def slotRowPred (did : Nat) (day : String) (hid : Nat) (r : DoctorSlotRow) : Bool :=
  r.doctor_id == did && r.day_of_week == day && r.hospital_id == hid

/-- The `WHERE` clause of the `appointments` `SELECT`:
`doctor_id = ? AND date = ? AND status != 'Cancelled' AND hospital_id = ?`. -/
def apptPred (did : Nat) (date : String) (hid : Nat) (a : AppointmentRow) : Bool :=
  a.doctor_id == did && a.date == date && a.status != "Cancelled" && a.hospital_id == hid

/-- `booked_slots = [slot['time_slot'] for slot in booked_slots]` over the
filtered `appointments` rows. -/
def bookedOf (did : Nat) (date : String) (hid : Nat) (db : DB) : List String :=
  (db.appointments.filter (apptPred did date hid)).map (·.time_slot)

/-- The route `/admin/get_doctor_slots/<int:doctor_id>/<date>`
(`get_doctor_slots` in app.py): session gate, date parse, weekday lookup
in `doctor_slots`, slot generation, booked-slot query.  The outer `Option`
is `none` only when `generate_time_slots` diverges (never with the fixed
interval 15, as proved below). -/
def get_doctor_slots (sess : Option Session) (doctor_id : Nat) (date : String)
    (db : DB) : Option HttpResponse :=
  match sess with
  | none => some ⟨401, Body.errorBody "Unauthorized"⟩
  | some s =>
    if s.user_type != "admin" then some ⟨401, Body.errorBody "Unauthorized"⟩
    else
      match parseDate date with
      | none => some ⟨400, Body.errorBody "Invalid date format"⟩
      | some pd =>
        let day := weekdayName pd
        if db.fail then some ⟨500, Body.errorBody "Server error"⟩
        else
          match db.doctor_slots.find? (slotRowPred doctor_id day s.hospital_id) with
          | none => some ⟨200, Body.errorBody "Doctor not available on this day"⟩
          | some row =>
            match generate_time_slots row.start_time row.end_time (rowBreak row) 15 with
            | none => none
            | some slots =>
              some ⟨200, Body.okBody slots (bookedOf doctor_id date s.hospital_id db)⟩

/-! ### Concrete fixtures used by witnesses -/

/-- An admin session for hospital 1. -/
def exSession : Session := ⟨"admin", 1⟩

/-- A Monday working window 09:00-12:00 with break 10:30-11:00 for doctor
1 at hospital 1. -/
def exRow : DoctorSlotRow :=
  ⟨1, "Monday", 1, 540, 720, some 630, some 660⟩

/-- A database with one working window and three appointments: two
non-cancelled ones for doctor 1 on 2025-01-06 at hospital 1, one
cancelled. -/
def exDB : DB :=
  ⟨[exRow],
    [⟨1, "2025-01-06", "09:00", "Scheduled", 1⟩,
     ⟨1, "2025-01-06", "09:15", "Cancelled", 1⟩,
     ⟨1, "2025-01-06", "11:00", "Completed", 1⟩],
    false⟩

/-- `exDB` with extra rows belonging to hospital 2 interleaved. -/
def exDB2 : DB :=
  ⟨[⟨1, "Monday", 2, 480, 600, none, none⟩, exRow],
    [⟨1, "2025-01-06", "08:00", "Scheduled", 2⟩,
     ⟨1, "2025-01-06", "09:00", "Scheduled", 1⟩,
     ⟨1, "2025-01-06", "09:15", "Cancelled", 1⟩,
     ⟨1, "2025-01-06", "11:00", "Completed", 1⟩],
    false⟩

/-- The same database with every hospital-2 row removed. -/
def exDB2' : DB :=
  ⟨[exRow],
    [⟨1, "2025-01-06", "09:00", "Scheduled", 1⟩,
     ⟨1, "2025-01-06", "09:15", "Cancelled", 1⟩,
     ⟨1, "2025-01-06", "11:00", "Completed", 1⟩],
    false⟩

/-! ### Loop lemmas -/

lemma breakHit_eq_true (brk : Option (Int × Int)) (c e : Int) :
    breakHit brk c e = true ↔ ∃ bs be, brk = some (bs, be) ∧ bs ≤ c ∧ e ≤ be := by
  cases brk with
  | none => simp [breakHit]
  | some p =>
    obtain ⟨bs, be⟩ := p
    constructor
    · intro h
      simp only [breakHit, Bool.and_eq_true, decide_eq_true_eq] at h
      exact ⟨bs, be, rfl, h.1, h.2⟩
    · rintro ⟨bs', be', heq, h1, h2⟩
      obtain ⟨rfl, rfl⟩ : bs = bs' ∧ be = be' := by
        have h' := Option.some.inj heq
        exact ⟨congrArg Prod.fst h', congrArg Prod.snd h'⟩
      simp only [breakHit, Bool.and_eq_true, decide_eq_true_eq]
      exact ⟨h1, h2⟩

lemma breakHit_none (c e : Int) : breakHit none c e = false := rfl

/-- With a non-positive interval the cursor never advances past `endT`, so
the loop exhausts any fuel: the Python loop diverges. -/
lemma genLoop_nonpos (endT d : Int) (hd : d ≤ 0) :
    ∀ (fuel : Nat) (current : Int), current < endT →
      genLoop endT none d fuel current = none := by
  intro fuel
  induction fuel with
  | zero => intro current _; rfl
  | succ fuel ih =>
    intro current hc
    have hend : current + d ≤ endT := by omega
    have hlt : current + d < endT := by omega
    simp only [genLoop, if_pos hc, breakHit_none, Bool.false_eq_true, if_false, if_pos hend,
      ih (current + d) hlt, Option.map_none']

/-- With a positive interval, fuel exceeding the remaining minutes is
enough: the loop reaches its exit condition. -/
lemma genLoop_isSome (endT : Int) (brk : Option (Int × Int)) (d : Int) (hd : 0 < d) :
    ∀ (fuel : Nat) (current : Int), (endT - current).toNat < fuel →
      (genLoop endT brk d fuel current).isSome = true := by
  intro fuel
  induction fuel with
  | zero => intro current h; exact absurd h (Nat.not_lt_zero _)
  | succ fuel ih =>
    intro current h
    simp only [genLoop]
    split
    · rename_i hc
      have h1 : (endT - (current + d)).toNat < fuel := by omega
      rcases hb : breakHit brk current (current + d) with _ | _
      · simp only [Bool.false_eq_true, if_false]
        split
        · simpa using ih (current + d) h1
        · exact ih (current + d) h1
      · simp only [if_true]
        obtain ⟨bs, be, hbrk, _, hbe⟩ := (breakHit_eq_true brk current (current + d)).mp hb
        have : breakEndOf brk = be := by rw [hbrk]; rfl
        rw [this]
        exact ih be (by omega)
    · rfl

/-- With a positive interval the result does not depend on the fuel, once
the fuel exceeds the remaining minutes. -/
lemma genLoop_stable (endT : Int) (brk : Option (Int × Int)) (d : Int) (hd : 0 < d) :
    ∀ (fuel₁ fuel₂ : Nat) (current : Int),
      (endT - current).toNat < fuel₁ → (endT - current).toNat < fuel₂ →
      genLoop endT brk d fuel₁ current = genLoop endT brk d fuel₂ current := by
  intro fuel₁
  induction fuel₁ with
  | zero => intro fuel₂ current h _; exact absurd h (Nat.not_lt_zero _)
  | succ fuel₁ ih =>
    intro fuel₂ current h1 h2
    cases fuel₂ with
    | zero => exact absurd h2 (Nat.not_lt_zero _)
    | succ fuel₂ =>
      simp only [genLoop]
      split
      · rename_i hc
        have ha : (endT - (current + d)).toNat < fuel₁ := by omega
        have hb' : (endT - (current + d)).toNat < fuel₂ := by omega
        rcases hb : breakHit brk current (current + d) with _ | _
        · simp only [Bool.false_eq_true, if_false]
          split
          · rw [ih fuel₂ (current + d) ha hb']
          · exact ih fuel₂ (current + d) ha hb'
        · simp only [if_true]
          obtain ⟨bs, be, hbrk, _, hbe⟩ := (breakHit_eq_true brk current (current + d)).mp hb
          have hbeq : breakEndOf brk = be := by rw [hbrk]; rfl
          rw [hbeq]
          exact ih fuel₂ be (by omega) (by omega)
      · rfl

/-- Any sufficient fuel computes `generate_time_slots`. -/
lemma genLoop_eq_generate (start endT : Int) (brk : Option (Int × Int)) (d : Int)
    (hd : 0 < d) (fuel : Nat) (h : (endT - start).toNat < fuel) :
    genLoop endT brk d fuel start = generate_time_slots start endT brk d :=
  genLoop_stable endT brk d hd fuel ((endT - start).toNat + 1) start h (Nat.lt_succ_self _)

/-- For a positive interval `generate_time_slots` terminates with a value. -/
lemma generate_isSome (start endT : Int) (brk : Option (Int × Int)) (d : Int)
    (hd : 0 < d) : (generate_time_slots start endT brk d).isSome = true :=
  genLoop_isSome endT brk d hd _ start (Nat.lt_succ_self _)

/-- Closed form of the loop without a break: starting from `current` it
emits exactly `(endT - current).toNat / d.toNat` contiguous slots of
length `d`. -/
lemma genLoop_noBreak (endT d : Int) (hd : 0 < d) :
    ∀ (fuel : Nat) (current : Int), (endT - current).toNat < fuel →
      genLoop endT none d fuel current =
        some ((List.range ((endT - current).toNat / d.toNat)).map
          (fun (i : Nat) => mkSlot (current + (i : Int) * d) (current + (i : Int) * d + d))) := by
  intro fuel
  induction fuel with
  | zero => intro current h; exact absurd h (Nat.not_lt_zero _)
  | succ fuel ih =>
    intro current h
    simp only [genLoop, breakHit_none, Bool.false_eq_true, if_false]
    split
    · rename_i hc
      have hfuel : (endT - (current + d)).toNat < fuel := by omega
      split
      · rename_i hfit
        rw [ih (current + d) hfuel]
        have hsplit : (endT - current).toNat = (endT - (current + d)).toNat + d.toNat := by
          omega
        have hdpos : 0 < d.toNat := by omega
        rw [hsplit, Nat.add_div_right _ hdpos, List.range_succ_eq_map]
        simp only [Option.map_some', Option.some.injEq, List.map_cons, List.map_map]
        congr 1
        · simp [mkSlot]
        · apply List.map_congr_left
          intro i _
          simp only [Function.comp_apply]
          congr 1 <;> push_cast <;> ring
      · rename_i hnofit
        rw [ih (current + d) hfuel]
        have h1 : (endT - current).toNat / d.toNat = 0 :=
          Nat.div_eq_of_lt (by omega)
        have h2 : (endT - (current + d)).toNat / d.toNat = 0 :=
          Nat.div_eq_of_lt (by omega)
        rw [h1, h2]
        simp
    · rename_i hc
      have h0 : (endT - current).toNat = 0 := by omega
      simp [h0]

/-- When the break pair is aligned to whole slot steps from `start`, every
cursor position of the form `start + i * d` yields a run in which no
emitted slot starts inside `[breakStart, breakEnd)`: a cursor inside the
break window always satisfies the skip condition and jumps to the
(aligned) break end. -/
lemma genLoop_aligned (start endT bs be d : Int) (hd : 0 < d) (j k : Nat)
    (hbs : bs = start + j * d) (hbe : be = start + k * d) :
    ∀ (fuel : Nat) (i : Nat) (l : List Slot),
      genLoop endT (some (bs, be)) d fuel (start + i * d) = some l →
      ∀ s ∈ l, ¬ (bs ≤ s.startMin ∧ s.startMin < be) := by
  intro fuel
  induction fuel with
  | zero => intro i l h; exact absurd h (by simp [genLoop])
  | succ fuel ih =>
    intro i l h
    simp only [genLoop] at h
    split at h
    · rename_i hc
      rcases hb : breakHit (some (bs, be)) (start + i * d) (start + i * d + d)
        with _ | _
      · rw [hb] at h
        simp only [Bool.false_eq_true, if_false] at h
        have hstep : start + i * d + d = start + (i + 1 : Nat) * d := by
          push_cast; ring
        have hout : ¬ (bs ≤ start + i * d ∧ start + i * d < be) := by
          rintro ⟨h1, h2⟩
          have hji : (j : Int) * d ≤ (i : Int) * d := by omega
          have hik : (i : Int) * d < (k : Int) * d := by omega
          have hji' : j ≤ i := by
            have := le_of_mul_le_mul_right hji hd
            exact_mod_cast this
          have hik' : i < k := by
            have := lt_of_mul_lt_mul_right hik (le_of_lt hd)
            exact_mod_cast this
          have hik2 : ((i : Int) + 1) * d ≤ (k : Int) * d := by
            have h1k : (i : Int) + 1 ≤ (k : Int) := by exact_mod_cast hik'
            exact mul_le_mul_of_nonneg_right h1k (le_of_lt hd)
          have : breakHit (some (bs, be)) (start + i * d) (start + i * d + d) = true := by
            simp only [breakHit, Bool.and_eq_true, decide_eq_true_eq]
            constructor
            · exact h1
            · rw [hbe]; nlinarith [hik2]
          rw [this] at hb
          exact absurd hb (by simp)
        split at h
        · rename_i hfit
          rcases hrec : genLoop endT (some (bs, be)) d fuel (start + i * d + d)
            with _ | l'
          · rw [hrec] at h; exact absurd h (by simp)
          · rw [hrec] at h
            simp only [Option.map_some', Option.some.injEq] at h
            subst h
            intro s hs
            rcases List.mem_cons.mp hs with hhead | htail
            · subst hhead
              simpa [mkSlot] using hout
            · rw [hstep] at hrec
              exact ih (i + 1) l' hrec s htail
        · rw [hstep] at h
          exact ih (i + 1) l h
      · rw [hb] at h
        simp only [if_true] at h
        have hbeq : breakEndOf (some (bs, be)) = be := rfl
        rw [hbeq] at h
        have h' : genLoop endT (some (bs, be)) d fuel (start + (k : Int) * d) = some l := by
          rw [← hbe]; exact h
        exact ih k l h'
    · rename_i hc
      have hl : l = [] := by
        injection h with h'
        exact h'.symm
      subst hl
      intro s hs
      exact absurd hs (List.not_mem_nil s)

/-! ### Claims about `generate_time_slots` -/

/-- Claim C1 is refuted: for the window 09:00-12:00 with break 10:20-11:00
and 15-minute slots, the output contains the slot 10:15-10:30, which
starts strictly before the break start (615 < 620) and ends inside the
break window (620 < 630 ≤ 660) — the straddling candidate is emitted, not
dropped. -/
theorem C1_counterexample :
    ((generate_time_slots 540 720 (some (620, 660)) 15).getD []).any
        (fun s => decide (s.startMin < 620) && decide (620 < s.endMin)
          && decide (s.endMin ≤ 660)) = true ∧
    (generate_time_slots 540 720 (some (620, 660)) 15).isSome = true := by
  constructor <;> decide

/-- Claim C1 (amended): a candidate slot that starts strictly before the
break start and would end inside the break window is emitted normally
whenever its end lies within the working window — the break-skip rule does
not fire for it, since that rule requires the cursor to have reached the
break start. -/
theorem C1_straddle_emitted (endT bs be d current : Int) (fuel : Nat)
    (h1 : current < bs) (h2 : bs < current + d) (h3 : current + d ≤ be)
    (h4 : current + d ≤ endT) :
    genLoop endT (some (bs, be)) d (fuel + 1) current =
      (genLoop endT (some (bs, be)) d fuel (current + d)).map
        (fun l => mkSlot current (current + d) :: l) := by
  have hc : current < endT := by omega
  have hbh : breakHit (some (bs, be)) current (current + d) = false := by
    have hn : ¬ bs ≤ current := not_le.mpr h1
    simp [breakHit, hn]
  simp only [genLoop, if_pos hc, hbh, Bool.false_eq_true, if_false, if_pos h4]

theorem C1_straddle_emitted_witness :
    (615 : Int) < 620 ∧ (620 : Int) < 615 + 15 ∧ (615 : Int) + 15 ≤ 660 ∧
    (615 : Int) + 15 ≤ 720 ∧
    genLoop 720 (some (620, 660)) 15 (20 + 1) 615 =
      (genLoop 720 (some (620, 660)) 15 20 (615 + 15)).map
        (fun l => mkSlot 615 (615 + 15) :: l) :=
  ⟨by decide, by decide, by decide, by decide,
    C1_straddle_emitted 720 620 660 15 615 20 (by decide) (by decide) (by decide) (by decide)⟩

/-- Claim C2 is refuted: for the window 09:00-12:00 with break 10:30-11:00
and 15-minute slots the generator returns 10 slots, not 9. -/
theorem C2_counterexample :
    (generate_time_slots 540 720 (some (630, 660)) 15).map (fun l => l.length) ≠ some 9 := by
  decide

/-- Claim C2 (amended): for the window 09:00-12:00 with break 10:30-11:00
and 15-minute slots the generator returns exactly 10 slots: 09:00, 09:15,
09:30, 09:45, 10:00 and 10:15 (6 morning slots — the 10:15-10:30 slot ends
exactly at the break start, so it does not straddle the break and is
emitted), then 11:00, 11:15, 11:30 and 11:45. -/
theorem C2_scenario :
    generate_time_slots 540 720 (some (630, 660)) 15 =
      some [mkSlot 540 555, mkSlot 555 570, mkSlot 570 585, mkSlot 585 600, mkSlot 600 615,
        mkSlot 615 630, mkSlot 660 675, mkSlot 675 690, mkSlot 690 705, mkSlot 705 720] := by
  rfl

/-- Claim C3 (the code violates it): with a non-positive slot duration and
`start < end` the loop never signals an input error — it diverges.  In the
embedding, the loop body exhausts every fuel bound (`genLoop` is `none`
for all fuel), so `generate_time_slots` yields no result at all rather
than an error value. -/
theorem C3_divergence (start endT d : Int) (hd : d ≤ 0) (h : start < endT) :
    (∀ fuel, genLoop endT none d fuel start = none) ∧
    generate_time_slots start endT none d = none := by
  constructor
  · intro fuel
    exact genLoop_nonpos endT d hd fuel start h
  · exact genLoop_nonpos endT d hd _ start h

theorem C3_divergence_witness :
    (0 : Int) ≤ 0 ∧ (540 : Int) < 600 ∧
    ((∀ fuel, genLoop 600 none 0 fuel 540 = none) ∧
      generate_time_slots 540 600 none 0 = none) :=
  ⟨by decide, by decide, C3_divergence 540 600 0 (by decide) (by decide)⟩

/-- Claim C4: with `start < end`, no break and positive duration `d`, the
generator returns exactly `⌊(end - start) / d⌋` slots and the `i`-th slot
is `[start + i*d, start + (i+1)*d)` — the slots tile the window
contiguously with no gaps or overlaps. -/
theorem C4_tiling (start endT d : Int) (hd : 0 < d) (hlt : start < endT) :
    ∃ l, generate_time_slots start endT none d = some l ∧
      l.length = (endT - start).toNat / d.toNat ∧
      l = (List.range ((endT - start).toNat / d.toNat)).map
        (fun (i : Nat) => mkSlot (start + (i : Int) * d) (start + (i : Int) * d + d)) := by
  refine ⟨_, ?_, ?_, rfl⟩
  · exact genLoop_noBreak endT d hd _ start (Nat.lt_succ_self _)
  · simp

theorem C4_tiling_witness :
    (0 : Int) < 25 ∧ (540 : Int) < 600 ∧
    (∃ l, generate_time_slots 540 600 none 25 = some l ∧
      l.length = ((600 : Int) - 540).toNat / (25 : Int).toNat ∧
      l = (List.range (((600 : Int) - 540).toNat / (25 : Int).toNat)).map
        (fun (i : Nat) => mkSlot (540 + (i : Int) * 25) (540 + (i : Int) * 25 + 25))) :=
  ⟨by decide, by decide, C4_tiling 540 600 25 (by decide) (by decide)⟩

/-- Claim C5: when both break bounds are reachable from the window start
by whole slot steps, no emitted slot starts inside `[breakStart,
breakEnd)` — a cursor inside the break window always satisfies the skip
rule and jumps to the break end. -/
theorem C5_aligned_break (start endT bs be d : Int) (j k : Nat) (hd : 0 < d)
    (hbs : bs = start + (j : Int) * d) (hbe : be = start + (k : Int) * d)
    (l : List Slot) (h : generate_time_slots start endT (some (bs, be)) d = some l) :
    ∀ s ∈ l, ¬ (bs ≤ s.startMin ∧ s.startMin < be) := by
  apply genLoop_aligned start endT bs be d hd j k hbs hbe ((endT - start).toNat + 1) 0 l
  simpa [generate_time_slots] using h

theorem C5_aligned_break_witness :
    (0 : Int) < 15 ∧ (570 : Int) = 540 + ((2 : Nat) : Int) * 15 ∧
    (600 : Int) = 540 + ((4 : Nat) : Int) * 15 ∧
    generate_time_slots 540 660 (some (570, 600)) 15 =
      some [mkSlot 540 555, mkSlot 555 570, mkSlot 600 615, mkSlot 615 630, mkSlot 630 645,
        mkSlot 645 660] ∧
    ¬ ((570 : Int) ≤ (mkSlot 540 555).startMin ∧ (mkSlot 540 555).startMin < 600) :=
  ⟨by decide, by decide, by decide, by rfl,
    C5_aligned_break 540 660 570 600 15 2 4 (by decide) (by decide) (by decide) _ (by rfl)
      (mkSlot 540 555) (by simp)⟩

/-- Claim C6: for every positive duration and any break configuration the
generator returns the empty list (a value, not an error) when the window
is empty or reversed (`start ≥ end`), and likewise when the window is
shorter than one slot (`end - start < duration`). -/
theorem C6_empty_window (start endT : Int) (brk : Option (Int × Int)) (d : Int)
    (hd : 0 < d) :
    (endT ≤ start → generate_time_slots start endT brk d = some []) ∧
    (endT - start < d → generate_time_slots start endT brk d = some []) := by
  constructor
  · intro h
    simp only [generate_time_slots, genLoop]
    rw [if_neg (by omega)]
  · intro h
    rcases lt_or_le start endT with hlt | hge
    · have hm : (endT - start).toNat + 1 = ((endT - start).toNat - 1) + 1 + 1 := by omega
      simp only [generate_time_slots]
      rw [hm]
      rw [genLoop, if_pos hlt]
      rcases hb : breakHit brk start (start + d) with _ | _
      · simp only [hb, Bool.false_eq_true, if_false]
        rw [if_neg (by omega)]
        rw [genLoop, if_neg (by omega)]
      · simp only [hb, if_true]
        obtain ⟨bs, be, hbrk, hbs, hbe⟩ := (breakHit_eq_true brk start (start + d)).mp hb
        have hbeq : breakEndOf brk = be := by rw [hbrk]; rfl
        rw [hbeq]
        rw [genLoop, if_neg (by omega)]
    · simp only [generate_time_slots, genLoop]
      rw [if_neg (by omega)]

theorem C6_empty_window_witness :
    (0 : Int) < 15 ∧ (600 : Int) ≤ 600 ∧
    generate_time_slots 600 600 (some (570, 580)) 15 = some [] ∧
    (0 : Int) < 45 ∧ (640 : Int) - 600 < 45 ∧
    generate_time_slots 600 640 none 45 = some [] :=
  ⟨by decide, by decide,
    (C6_empty_window 600 600 (some (570, 580)) 15 (by decide)).1 (by decide),
    by decide, by decide,
    (C6_empty_window 600 640 none 45 (by decide)).2 (by decide)⟩

/-- Claim C10: for every slot duration of at least one minute and every
combination of window and break bounds, the loop terminates — all fuel
bounds beyond the window length give the same defined result. -/
theorem C10_termination (start endT : Int) (brk : Option (Int × Int)) (d : Int)
    (hd : 1 ≤ d) :
    ∃ l, generate_time_slots start endT brk d = some l ∧
      ∀ fuel, (endT - start).toNat < fuel → genLoop endT brk d fuel start = some l := by
  have hpos : 0 < d := hd
  obtain ⟨l, hl⟩ := Option.isSome_iff_exists.mp (generate_isSome start endT brk d hpos)
  refine ⟨l, hl, fun fuel hf => ?_⟩
  rw [genLoop_eq_generate start endT brk d hpos fuel hf, hl]

theorem C10_termination_witness :
    (1 : Int) ≤ 15 ∧
    (∃ l, generate_time_slots 540 600 (some (550, 562)) 15 = some l ∧
      ∀ fuel, ((600 : Int) - 540).toNat < fuel →
        genLoop 600 (some (550, 562)) 15 fuel 540 = some l) :=
  ⟨by decide, C10_termination 540 600 (some (550, 562)) 15 (by decide)⟩

/-! ### Claims about the `get_doctor_slots` route -/

/-- `find?` only inspects rows satisfying any predicate implied by the
search predicate: `fetchone` on a hospital-scoped `WHERE` clause depends
only on the rows of that hospital, in table order. -/
lemma find?_restrict {α : Type} (p q : α → Bool) (h : ∀ a, p a = true → q a = true) :
    ∀ l : List α, l.find? p = (l.filter q).find? p := by
  intro l
  induction l with
  | nil => rfl
  | cons a l ih =>
    rcases hp : p a with _ | _
    · rcases hq : q a with _ | _
      · simp only [List.find?_cons, List.filter_cons, hp, hq, Bool.false_eq_true, if_false, ih]
      · simp only [List.find?_cons, List.filter_cons, hp, hq, Bool.false_eq_true, if_false,
          if_true, ih]
    · have hqa := h a hp
      simp only [List.find?_cons, List.filter_cons, hp, hqa, if_true]

/-- `filter` likewise only inspects rows satisfying any implied predicate. -/
lemma filter_restrict {α : Type} (p q : α → Bool) (h : ∀ a, p a = true → q a = true) :
    ∀ l : List α, l.filter p = (l.filter q).filter p := by
  intro l
  induction l with
  | nil => rfl
  | cons a l ih =>
    rcases hp : p a with _ | _
    · rcases hq : q a with _ | _
      · simp only [List.filter_cons, hp, hq, Bool.false_eq_true, if_false, ih]
      · simp only [List.filter_cons, hp, hq, Bool.false_eq_true, if_false, if_true, ih]
    · have hqa := h a hp
      simp only [List.filter_cons, hp, hqa, if_true, ih]

/-- Claim C7: for an admin session, a well-formed date, a configured
working window and a healthy persistence layer, the route returns the full
generated slot list together with a `booked_slots` list that is exactly
the `time_slot` values of the non-Cancelled appointments of that doctor,
date and hospital; booked slots are not removed from the slot list. -/
theorem C7_booked_slots (s : Session) (did : Nat) (date : String) (db : DB)
    (pd : Nat × Nat × Nat) (row : DoctorSlotRow)
    (hadmin : s.user_type = "admin")
    (hdate : parseDate date = some pd)
    (hfail : db.fail = false)
    (hrow : db.doctor_slots.find? (slotRowPred did (weekdayName pd) s.hospital_id) = some row) :
    ∃ slots, generate_time_slots row.start_time row.end_time (rowBreak row) 15 = some slots ∧
      get_doctor_slots (some s) did date db =
        some ⟨200, Body.okBody slots (bookedOf did date s.hospital_id db)⟩ ∧
      ∀ t : String, t ∈ bookedOf did date s.hospital_id db ↔
        ∃ a ∈ db.appointments, a.doctor_id = did ∧ a.date = date ∧
          a.status ≠ "Cancelled" ∧ a.hospital_id = s.hospital_id ∧ a.time_slot = t := by
  obtain ⟨slots, hslots⟩ := Option.isSome_iff_exists.mp
    (generate_isSome row.start_time row.end_time (rowBreak row) 15 (by decide))
  refine ⟨slots, hslots, ?_, ?_⟩
  · simp only [get_doctor_slots, hadmin, hdate, hfail, hrow, hslots, bne_self_eq_false,
      Bool.false_eq_true, if_false]
  · intro t
    simp only [bookedOf, List.mem_map, List.mem_filter, apptPred, Bool.and_eq_true,
      beq_iff_eq, bne_iff_ne]
    constructor
    · rintro ⟨a, ⟨ha, ⟨⟨⟨h1, h2⟩, h3⟩, h4⟩⟩, h5⟩
      exact ⟨a, ha, h1, h2, h3, h4, h5⟩
    · rintro ⟨a, ha, h1, h2, h3, h4, h5⟩
      exact ⟨a, ⟨ha, ⟨⟨⟨h1, h2⟩, h3⟩, h4⟩⟩, h5⟩

theorem C7_booked_slots_witness :
    (exSession.user_type = "admin") ∧
    parseDate "2025-01-06" = some (2025, 1, 6) ∧
    exDB.fail = false ∧
    exDB.doctor_slots.find? (slotRowPred 1 (weekdayName (2025, 1, 6)) exSession.hospital_id) =
      some exRow ∧
    (∃ slots, generate_time_slots exRow.start_time exRow.end_time (rowBreak exRow) 15 = some slots ∧
      get_doctor_slots (some exSession) 1 "2025-01-06" exDB =
        some ⟨200, Body.okBody slots (bookedOf 1 "2025-01-06" exSession.hospital_id exDB)⟩ ∧
      ∀ t : String, t ∈ bookedOf 1 "2025-01-06" exSession.hospital_id exDB ↔
        ∃ a ∈ exDB.appointments, a.doctor_id = 1 ∧ a.date = "2025-01-06" ∧
          a.status ≠ "Cancelled" ∧ a.hospital_id = exSession.hospital_id ∧ a.time_slot = t) :=
  ⟨rfl, by decide, rfl, by decide,
    C7_booked_slots exSession 1 "2025-01-06" exDB (2025, 1, 6) exRow rfl (by decide) rfl (by decide)⟩

/-- Claim C8: the route maps its failure conditions to responses as
follows — missing session or non-admin role gives 401, an unparseable
date gives 400, a persistence failure gives 500, and a missing working
window for the requested weekday gives a 200 response that signals zero
availability rather than an error status. -/
theorem C8_error_mapping :
    (∀ (did : Nat) (date : String) (db : DB),
      get_doctor_slots none did date db = some ⟨401, Body.errorBody "Unauthorized"⟩) ∧
    (∀ (s : Session) (did : Nat) (date : String) (db : DB), s.user_type ≠ "admin" →
      get_doctor_slots (some s) did date db = some ⟨401, Body.errorBody "Unauthorized"⟩) ∧
    (∀ (s : Session) (did : Nat) (date : String) (db : DB), s.user_type = "admin" →
      parseDate date = none →
      get_doctor_slots (some s) did date db = some ⟨400, Body.errorBody "Invalid date format"⟩) ∧
    (∀ (s : Session) (did : Nat) (date : String) (db : DB) (pd : Nat × Nat × Nat),
      s.user_type = "admin" → parseDate date = some pd → db.fail = true →
      get_doctor_slots (some s) did date db = some ⟨500, Body.errorBody "Server error"⟩) ∧
    (∀ (s : Session) (did : Nat) (date : String) (db : DB) (pd : Nat × Nat × Nat),
      s.user_type = "admin" → parseDate date = some pd → db.fail = false →
      db.doctor_slots.find? (slotRowPred did (weekdayName pd) s.hospital_id) = none →
      get_doctor_slots (some s) did date db =
        some ⟨200, Body.errorBody "Doctor not available on this day"⟩) := by
  refine ⟨?_, ?_, ?_, ?_, ?_⟩
  · intro did date db
    rfl
  · intro s did date db hne
    simp only [get_doctor_slots, bne_iff_ne, ne_eq, hne, not_false_eq_true, if_true]
  · intro s did date db hadmin hdate
    simp only [get_doctor_slots, hadmin, hdate, bne_self_eq_false, Bool.false_eq_true, if_false]
  · intro s did date db pd hadmin hdate hfail
    simp only [get_doctor_slots, hadmin, hdate, hfail, bne_self_eq_false, Bool.false_eq_true,
      if_false, if_true]
  · intro s did date db pd hadmin hdate hfail hrow
    simp only [get_doctor_slots, hadmin, hdate, hfail, hrow, bne_self_eq_false,
      Bool.false_eq_true, if_false]

theorem C8_error_mapping_witness :
    get_doctor_slots none 1 "2025-01-06" exDB = some ⟨401, Body.errorBody "Unauthorized"⟩ ∧
    ("doctor" ≠ "admin") ∧
    get_doctor_slots (some ⟨"doctor", 1⟩) 1 "2025-01-06" exDB =
      some ⟨401, Body.errorBody "Unauthorized"⟩ ∧
    parseDate "not-a-date" = none ∧
    get_doctor_slots (some exSession) 1 "not-a-date" exDB =
      some ⟨400, Body.errorBody "Invalid date format"⟩ ∧
    (DB.mk exDB.doctor_slots exDB.appointments true).fail = true ∧
    get_doctor_slots (some exSession) 1 "2025-01-06"
        (DB.mk exDB.doctor_slots exDB.appointments true) =
      some ⟨500, Body.errorBody "Server error"⟩ ∧
    exDB.doctor_slots.find? (slotRowPred 1 (weekdayName (2025, 1, 7)) exSession.hospital_id) =
      none ∧
    get_doctor_slots (some exSession) 1 "2025-01-07" exDB =
      some ⟨200, Body.errorBody "Doctor not available on this day"⟩ :=
  ⟨C8_error_mapping.1 1 "2025-01-06" exDB,
    by decide,
    C8_error_mapping.2.1 ⟨"doctor", 1⟩ 1 "2025-01-06" exDB (by decide),
    by decide,
    C8_error_mapping.2.2.1 exSession 1 "not-a-date" exDB rfl (by decide),
    rfl,
    C8_error_mapping.2.2.2.1 exSession 1 "2025-01-06"
      (DB.mk exDB.doctor_slots exDB.appointments true) (2025, 1, 6) rfl (by decide) rfl,
    by decide,
    C8_error_mapping.2.2.2.2 exSession 1 "2025-01-07" exDB (2025, 1, 7) rfl (by decide) rfl
      (by decide)⟩

/-- Claim C9: tenant isolation as two-run noninterference — for an admin
session of hospital `H`, the response depends only on the `doctor_slots`
and `appointments` rows with `hospital_id = H`; two databases agreeing on
those rows (and on persistence health) produce identical responses. -/
theorem C9_tenant_isolation (s : Session) (did : Nat) (date : String) (db db' : DB)
    (hf : db.fail = db'.fail)
    (hds : db.doctor_slots.filter (fun r => r.hospital_id == s.hospital_id) =
      db'.doctor_slots.filter (fun r => r.hospital_id == s.hospital_id))
    (hap : db.appointments.filter (fun a => a.hospital_id == s.hospital_id) =
      db'.appointments.filter (fun a => a.hospital_id == s.hospital_id)) :
    get_doctor_slots (some s) did date db = get_doctor_slots (some s) did date db' := by
  rcases hparse : parseDate date with _ | pd
  · simp only [get_doctor_slots, hparse]
  · have hfind : ∀ day : String,
        db.doctor_slots.find? (slotRowPred did day s.hospital_id) =
          db'.doctor_slots.find? (slotRowPred did day s.hospital_id) := by
      intro day
      have himp : ∀ r : DoctorSlotRow, slotRowPred did day s.hospital_id r = true →
          (r.hospital_id == s.hospital_id) = true := by
        intro r hr
        simp only [slotRowPred, Bool.and_eq_true] at hr
        exact hr.2
      rw [find?_restrict _ _ himp db.doctor_slots, hds,
        ← find?_restrict _ _ himp db'.doctor_slots]
    have hbooked : bookedOf did date s.hospital_id db = bookedOf did date s.hospital_id db' := by
      have himp : ∀ a : AppointmentRow, apptPred did date s.hospital_id a = true →
          (a.hospital_id == s.hospital_id) = true := by
        intro a ha
        simp only [apptPred, Bool.and_eq_true] at ha
        exact ha.2
      simp only [bookedOf]
      rw [filter_restrict _ _ himp db.appointments, hap,
        ← filter_restrict _ _ himp db'.appointments]
    simp only [get_doctor_slots, hparse, hf, hfind, hbooked]

theorem C9_tenant_isolation_witness :
    exDB2.fail = exDB2'.fail ∧
    exDB2.doctor_slots.filter (fun r => r.hospital_id == exSession.hospital_id) =
      exDB2'.doctor_slots.filter (fun r => r.hospital_id == exSession.hospital_id) ∧
    exDB2.appointments.filter (fun a => a.hospital_id == exSession.hospital_id) =
      exDB2'.appointments.filter (fun a => a.hospital_id == exSession.hospital_id) ∧
    get_doctor_slots (some exSession) 1 "2025-01-06" exDB2 =
      get_doctor_slots (some exSession) 1 "2025-01-06" exDB2' :=
  ⟨rfl, by decide, by decide,
    C9_tenant_isolation exSession 1 "2025-01-06" exDB2 exDB2' rfl (by decide) (by decide)⟩

end HMS
